import Mathlib

/-!
Shallow embedding of the sundown repository (src/sundown/deviation.py,
src/sundown/comment.py, src/sundown/client.py).

Python strings are modelled as lists of characters (`Str`).  JSON values
(the result of `json.loads`) are modelled by the inductive `JSON`.
Python exceptions are modelled by the inductive `Exc`; `raise X from e`
is modelled by a cause field on the raised constructor.  Fallible Python
code is modelled in the `Except Exc` monad.
-/

namespace Sundown

abbrev Str := List Char

/-- JSON values, as produced by `json.loads`.  Numbers are restricted to
integers: no part of the repository under verification manipulates
non-integer JSON numbers. -/
inductive JSON where
  | null : JSON
  | bool : Bool → JSON
  | num : Int → JSON
  | str : Str → JSON
  | arr : List JSON → JSON
  | obj : List (Str × JSON) → JSON

/-- Python exceptions raised by the embedded code.  A `cause` argument
models exception chaining (`raise ... from exc`). -/
inductive Exc where
  | keyError (key : Str)
  | typeError (msg : Str)
  | attributeError (msg : Str)
  | valueError (msg : Str) (cause : Option Exc)
  | notImplementedError (msg : Str) (cause : Option Exc)
  | jsonDecodeError (msg : Str)
  | pageJSONError (msg : Str) (cause : Exc)
  | commentJSONError (msg : Str) (cause : Exc)
  | clientError (msg : Str) (cause : Option Exc)
  | badJSONError (msg : Str) (cause : Option Exc)
  | serverResponseError (msg : Str)
  | serverConnectionError (msg : Str)

def Exc.isValueError : Exc → Bool
  | .valueError _ _ => true
  | _ => false

def Exc.isNotImplementedError : Exc → Bool
  | .notImplementedError _ _ => true
  | _ => false

def Exc.isKeyError : Exc → Bool
  | .keyError _ => true
  | _ => false

def Exc.isJSONDecodeError : Exc → Bool
  | .jsonDecodeError _ => true
  | _ => false

def Exc.isPageJSONError : Exc → Bool
  | .pageJSONError _ _ => true
  | _ => false

def Exc.isCommentJSONError : Exc → Bool
  | .commentJSONError _ _ => true
  | _ => false

/-- Whether an `Except` result is an error satisfying `p`. -/
def errIs {α : Type} (r : Except Exc α) (p : Exc → Bool) : Bool :=
  match r with
  | .error e => p e
  | .ok _ => false

def isOk {α : Type} : Except Exc α → Bool
  | .ok _ => true
  | .error _ => false

/-! ### Character classes and small string helpers -/

/-- The character class `[A-Za-z0-9-]` of the artist group in
`deviation.URL_PATTERN`. -/
def isArtistChar (c : Char) : Bool :=
  c.isUpper || c.isLower || c.isDigit || c == '-'

/-- The character class `[a-z-]` of the kind group in
`deviation.URL_PATTERN`. -/
def isKindChar (c : Char) : Bool :=
  (('a' ≤ c) && (c ≤ 'z')) || c == '-'

/-- ASCII lower-case table: the fragment of Python `str.lower` relevant
to this repository (all inputs constrained by the URL grammars are
ASCII). -/
def lowerPairs : List (Char × Char) :=
  [('A', 'a'), ('B', 'b'), ('C', 'c'), ('D', 'd'), ('E', 'e'), ('F', 'f'),
   ('G', 'g'), ('H', 'h'), ('I', 'i'), ('J', 'j'), ('K', 'k'), ('L', 'l'),
   ('M', 'm'), ('N', 'n'), ('O', 'o'), ('P', 'p'), ('Q', 'q'), ('R', 'r'),
   ('S', 's'), ('T', 't'), ('U', 'u'), ('V', 'v'), ('W', 'w'), ('X', 'x'),
   ('Y', 'y'), ('Z', 'z')]

def pyLowerChar (c : Char) : Char :=
  match lowerPairs.find? (fun p => p.1 == c) with
  | some p => p.2
  | none => c

def pyUpperChar (c : Char) : Char :=
  match lowerPairs.find? (fun p => p.2 == c) with
  | some p => p.1
  | none => c

/-- Python `str.lower` (ASCII fragment). -/
def pyLower (s : Str) : Str := s.map pyLowerChar

/-- Python `str.upper` (ASCII fragment). -/
def pyUpper (s : Str) : Str := s.map pyUpperChar

/-- Python `sep.join(parts)`. -/
def strJoin (sep : Str) : List Str → Str
  | [] => []
  | [x] => x
  | x :: xs => x ++ sep ++ strJoin sep xs

/-! ### Model of the two `re` patterns

Each pattern is compiled by hand into an executable matcher whose
backtracking order follows Python's `re` semantics, as argued case by
case in the comments.  `search` tries every start position from the
left and returns the groups of the first position where the whole
pattern matches. -/

/-- Match a literal: if `s` starts with `lit`, return the rest. -/
def stripLit : Str → Str → Option Str
  | [], s => some s
  | _ :: _, [] => none
  | c :: cs, x :: xs => if x = c then stripLit cs xs else none

def charAtIs (s : Str) (i : Nat) (c : Char) : Bool :=
  match s.get? i with
  | some x => x == c
  | none => false

def charAtIsDigit (s : Str) (i : Nat) : Bool :=
  match s.get? i with
  | some x => x.isDigit
  | none => false

/-- Matcher for the suffix `(?:.+-)?(\d+)` of `deviation.URL_PATTERN`,
anchored at the start of `s`; returns the digits group.  The parameter
is the length tried for `.+` (Python tries the longest first, then
backtracks down to one character, then tries the empty optional
group). -/
def tailScan (s : Str) : Nat → Option Str
  | 0 =>
    match s with
    | c :: _ => if c.isDigit then some (s.takeWhile Char.isDigit) else none
    | [] => none
  | n + 1 =>
    if charAtIs s (n + 1) '-' && charAtIsDigit s (n + 2) then
      some ((s.drop (n + 2)).takeWhile Char.isDigit)
    else
      tailScan s n

/-- `(?:.+-)?(\d+)` at the start of `s`: `.+` can span at most the
maximal newline-free prefix. -/
def tailMatch (s : Str) : Option Str :=
  tailScan s (s.takeWhile (fun c => !(c == '\n'))).length

/-- Literal part of `deviation.URL_PATTERN`
(`www\.deviantart\.com/`). -/
def DEV_LIT : Str :=
  ['w', 'w', 'w', '.', 'd', 'e', 'v', 'i', 'a', 'n', 't', 'a', 'r', 't',
   '.', 'c', 'o', 'm', '/']

/-- Attempt `deviation.URL_PATTERN` anchored at the start of `s`,
returning the groups (artist, kind, id).  The artist and kind character
classes exclude `/`, and each group is followed by a literal `/` in the
pattern, so maximal-munch followed by a separator check is exactly the
regex backtracking semantics for those two groups. -/
def devMatchAt (s : Str) : Option (Str × Str × Str) :=
  match stripLit DEV_LIT s with
  | none => none
  | some r1 =>
    let artist := r1.takeWhile isArtistChar
    if artist.isEmpty then none else
    match r1.dropWhile isArtistChar with
    | '/' :: r3 =>
      let kind := r3.takeWhile isKindChar
      if kind.isEmpty then none else
      match r3.dropWhile isKindChar with
      | '/' :: r5 =>
        match tailMatch r5 with
        | some idg => some (artist, kind, idg)
        | none => none
      | _ => none
    | _ => none

/-- `URL_PATTERN.search` for deviation URLs: leftmost match wins. -/
def devSearch : Str → Option (Str × Str × Str)
  | [] => none
  | c :: rest =>
    match devMatchAt (c :: rest) with
    | some g => some g
    | none => devSearch rest

/-- Literal part of `comment.URL_PATTERN`
(`www\.deviantart\.com/comments/`). -/
def COMMENT_LIT : Str :=
  ['w', 'w', 'w', '.', 'd', 'e', 'v', 'i', 'a', 'n', 't', 'a', 'r', 't',
   '.', 'c', 'o', 'm', '/', 'c', 'o', 'm', 'm', 'e', 'n', 't', 's', '/']

/-- Attempt `comment.URL_PATTERN` (`(\d+)/(\d+)/(\d+)` after the
literal) anchored at the start of `s`.  Digits exclude `/`, so
maximal-munch is again exact. -/
def commentMatchAt (s : Str) : Option (Str × Str × Str) :=
  match stripLit COMMENT_LIT s with
  | none => none
  | some r1 =>
    let d1 := r1.takeWhile Char.isDigit
    if d1.isEmpty then none else
    match r1.dropWhile Char.isDigit with
    | '/' :: r3 =>
      let d2 := r3.takeWhile Char.isDigit
      if d2.isEmpty then none else
      match r3.dropWhile Char.isDigit with
      | '/' :: r5 =>
        let d3 := r5.takeWhile Char.isDigit
        if d3.isEmpty then none else some (d1, d2, d3)
      | _ => none
    | _ => none

/-- `URL_PATTERN.search` for comment URLs: leftmost match wins. -/
def commentSearch : Str → Option (Str × Str × Str)
  | [] => none
  | c :: rest =>
    match commentMatchAt (c :: rest) with
    | some g => some g
    | none => commentSearch rest

/-! ### deviation.py -/

/-- `Kind(StrEnum)` with `ART = "1"` and `JOURNAL = "1"`.  In Python,
`JOURNAL` is an alias of `ART` (same member, `Kind.JOURNAL.name ==
"ART"`), so the enum has a single member. -/
inductive Kind where
  | ART
  deriving DecidableEq

/-- `Kind.<member>.value`. -/
def Kind.val : Kind → Str
  | .ART => ['1']

/-- `Kind.<member>.name` (the alias `JOURNAL` canonicalizes to
`ART`). -/
def Kind.name : Kind → Str
  | .ART => ['A', 'R', 'T']

/-- Names accepted by `Kind[name]` (member names, aliases included). -/
def kindNameOk (n : Str) : Bool :=
  n == ['A', 'R', 'T'] || n == ['J', 'O', 'U', 'R', 'N', 'A', 'L']

/-- `Kind[name]` — lookup by member name; raises `KeyError` otherwise. -/
def Kind.fromName (n : Str) : Except Exc Kind :=
  if kindNameOk n then .ok .ART else .error (.keyError n)

/-- `Kind(value)` — lookup by value; raises `ValueError` otherwise. -/
def Kind.fromValue (v : Str) : Except Exc Kind :=
  if v == ['1'] then .ok .ART
  else .error (.valueError (v ++ (" is not a valid Kind".data)) none)

structure Deviation where
  artist : Str
  kind : Kind
  id : Str
  deriving DecidableEq

structure PartialDeviation where
  kind : Kind
  id : Str
  deriving DecidableEq

/-- `PartialDeviation.promote`. -/
def PartialDeviation.promote (p : PartialDeviation) (artist : Str) :
    Deviation :=
  ⟨artist, p.kind, p.id⟩

/-- `Deviation.from_url`.  A failed search (`None.groups()` raising
`AttributeError`) is re-raised as `ValueError`; an unknown kind name
(`KeyError` from `Kind[...]`) is re-raised as `NotImplementedError`. -/
def Deviation.from_url (url : Str) : Except Exc Deviation :=
  match devSearch url with
  | none =>
    .error (.valueError (url ++ (": invalid deviation URL".data))
      (some (.attributeError ("NoneType has no attribute groups".data))))
  | some (artist, kind, idg) =>
    match Kind.fromName (pyUpper kind) with
    | .ok k => .ok ⟨artist, k, idg⟩
    | .error e =>
      .error (.notImplementedError (kind ++ (": kind not implemented".data))
        (some e))

/-- `Deviation.url` (property). -/
def Deviation.url (d : Deviation) : Str :=
  strJoin ['/']
    [("https://www.deviantart.com".data), pyLower d.artist,
     pyLower d.kind.name, d.id]

/-! ### Python dict / JSON value primitives -/

/-- First-match association lookup (Python dicts have unique keys, so
first-match equals dict lookup on every dict the embedded code
builds). -/
def lookupStr : List (Str × JSON) → Str → Option JSON
  | [], _ => none
  | (k, v) :: rest, key => if k = key then some v else lookupStr rest key

/-- Python `data[key]` on a JSON value: `KeyError` when the key is
absent, `TypeError` when the value is not a dict. -/
def JSON.getKey (j : JSON) (key : Str) : Except Exc JSON :=
  match j with
  | .obj kvs =>
    match lookupStr kvs key with
    | some v => .ok v
    | none => .error (.keyError key)
  | _ => .error (.typeError ("value is not subscriptable by str".data))

/-- Python iteration `for x in j`: lists yield elements, strings yield
one-character strings, dicts yield their keys, anything else raises
`TypeError`. -/
def JSON.getList (j : JSON) : Except Exc (List JSON) :=
  match j with
  | .arr l => .ok l
  | .str s => .ok (s.map (fun c => JSON.str [c]))
  | .obj kvs => .ok (kvs.map (fun kv => JSON.str kv.1))
  | _ => .error (.typeError ("value is not iterable".data))

/-- Python truthiness of a JSON value. -/
def JSON.truthy : JSON → Bool
  | .null => false
  | .bool b => b
  | .num n => !(n == 0)
  | .str s => !s.isEmpty
  | .arr l => !l.isEmpty
  | .obj l => !l.isEmpty

/-- Python `str()` of a JSON value.  The container cases stand in for
Python's container repr, which no code path under verification ever
reaches with a meaningful result (such a string can never be a valid
`Kind` value, which is the only use). -/
def pyStr : JSON → Str
  | .null => "None".data
  | .bool true => "True".data
  | .bool false => "False".data
  | .num n => (toString n).data
  | .str s => s
  | .arr _ => "<list>".data
  | .obj _ => "<dict>".data

/-- Coercion used where Python requires an actual `str` object. -/
def JSON.asStr : JSON → Except Exc Str
  | .str s => .ok s
  | _ => .error (.typeError ("expected str".data))

/-! ### `json.loads` (model of the stdlib JSON text parser)

A recursive-descent parser over `Str` with a fuel parameter (each call
either consumes input or decreases fuel).  Unsupported corners of the
grammar, none of which any claim exercises: `\uXXXX` string escapes and
non-integer numbers are rejected. -/

def skipWs : Str → Str
  | c :: cs =>
    if c == ' ' || c == '\t' || c == '\n' || c == '\r' then skipWs cs
    else c :: cs
  | [] => []

def natOfDigits (ds : Str) : Nat :=
  ds.foldl (fun n c => n * 10 + (c.toNat - ('0').toNat)) 0

def parseDigits (s : Str) : Option (Nat × Str) :=
  let ds := s.takeWhile Char.isDigit
  if ds.isEmpty then none
  else some (natOfDigits ds, s.dropWhile Char.isDigit)

/-- The two-character escapes of the JSON grammar (escape letter paired
with the character it denotes); `\uXXXX` is not in the table, see
above. -/
def escPairs : List (Char × Char) :=
  [('"', '"'), ('\\', '\\'), ('/', '/'), ('n', Char.ofNat 10),
   ('t', Char.ofNat 9), ('r', Char.ofNat 13), ('b', Char.ofNat 8),
   ('f', Char.ofNat 12)]

def escChar (e : Char) : Option Char :=
  (escPairs.find? (fun p => p.1 == e)).map Prod.snd

/-- Parse a JSON string body (after the opening quote). -/
def pjStr : Nat → Str → Option (Str × Str)
  | 0, _ => none
  | _ + 1, [] => none
  | f + 1, c :: cs =>
    if c == '"' then some ([], cs)
    else if c == '\\' then
      match cs with
      | e :: cs2 =>
        match escChar e with
        | some ec => (pjStr f cs2).map (fun r => (ec :: r.1, r.2))
        | none => none
      | [] => none
    else (pjStr f cs).map (fun r => (c :: r.1, r.2))

/-- Replace-or-append update, i.e. Python dict assignment (insertion
order kept, last value wins). -/
def setKeyStr (m : List (Str × JSON)) (k : Str) (v : JSON) :
    List (Str × JSON) :=
  if m.any (fun kv => kv.1 == k) then
    m.map (fun kv => if kv.1 == k then (k, v) else kv)
  else m ++ [(k, v)]

mutual

/-- Parse one JSON value at the head of the input. -/
def pjVal : Nat → Str → Option (JSON × Str)
  | 0, _ => none
  | f + 1, s =>
    match skipWs s with
    | [] => none
    | c :: cs =>
      if c == 'n' then
        (stripLit ("ull".data) cs).map (fun r => (JSON.null, r))
      else if c == 't' then
        (stripLit ("rue".data) cs).map (fun r => (JSON.bool true, r))
      else if c == 'f' then
        (stripLit ("alse".data) cs).map (fun r => (JSON.bool false, r))
      else if c == '"' then
        (pjStr f cs).map (fun r => (JSON.str r.1, r.2))
      else if c == '[' then
        match skipWs cs with
        | ']' :: r => some (JSON.arr [], r)
        | s2 =>
          match pjElems f s2 with
          | some (vs, r) => some (JSON.arr vs, r)
          | none => none
      else if c == '{' then
        match skipWs cs with
        | '}' :: r => some (JSON.obj [], r)
        | s2 =>
          match pjMembers f s2 with
          | some (ms, r) =>
            some (JSON.obj (ms.foldl (fun m kv => setKeyStr m kv.1 kv.2) []), r)
          | none => none
      else if c == '-' then
        match parseDigits cs with
        | some (n, r) => some (JSON.num (-(n : Int)), r)
        | none => none
      else if c.isDigit then
        match parseDigits (c :: cs) with
        | some (n, r) => some (JSON.num (n : Int), r)
        | none => none
      else none

/-- Parse a nonempty comma-separated value list up to `]`. -/
def pjElems : Nat → Str → Option (List JSON × Str)
  | 0, _ => none
  | f + 1, s =>
    match pjVal f s with
    | none => none
    | some (v, r) =>
      match skipWs r with
      | ',' :: r2 =>
        match pjElems f r2 with
        | some (vs, r3) => some (v :: vs, r3)
        | none => none
      | ']' :: r2 => some ([v], r2)
      | _ => none

/-- Parse a nonempty key-value member list up to the closing brace. -/
def pjMembers : Nat → Str → Option (List (Str × JSON) × Str)
  | 0, _ => none
  | f + 1, s =>
    match skipWs s with
    | '"' :: cs =>
      match pjStr f cs with
      | none => none
      | some (k, r) =>
        match skipWs r with
        | ':' :: r2 =>
          match pjVal f r2 with
          | none => none
          | some (v, r3) =>
            match skipWs r3 with
            | ',' :: r4 =>
              match pjMembers f r4 with
              | some (ms, r5) => some ((k, v) :: ms, r5)
              | none => none
            | '}' :: r4 => some ([(k, v)], r4)
            | _ => none
        | _ => none
    | _ => none

end

/-- `json.loads` on a string: the whole input must be one JSON value
(plus whitespace), else `json.JSONDecodeError`. -/
def jsonLoadsStr (s : Str) : Except Exc JSON :=
  match pjVal (4 * s.length + 16) s with
  | some (v, rest) =>
    if (skipWs rest).isEmpty then .ok v
    else .error (.jsonDecodeError ("Extra data".data))
  | none => .error (.jsonDecodeError ("Expecting value".data))

/-- `json.loads` applied to an arbitrary value: non-strings raise
`TypeError`. -/
def jsonLoadsValue : JSON → Except Exc JSON
  | .str s => jsonLoadsStr s
  | _ => .error (.typeError ("the JSON object must be str".data))

/-- `datetime.fromisoformat` — modelled stdlib collaborator: validates
the `YYYY-MM-DD[THH:MM:SS...]` shape and returns the string itself as
the timestamp value (no claim inspects parsed timestamps); invalid
shapes raise `ValueError` as in Python. -/
def fromisoformat (s : Str) : Except Exc Str :=
  let shapeOk :=
    charAtIsDigit s 0 && charAtIsDigit s 1 && charAtIsDigit s 2 &&
    charAtIsDigit s 3 && charAtIs s 4 '-' && charAtIsDigit s 5 &&
    charAtIsDigit s 6 && charAtIs s 7 '-' && charAtIsDigit s 8 &&
    charAtIsDigit s 9 &&
    (decide (s.length = 10) ||
      ((charAtIs s 10 'T' || charAtIs s 10 ' ') && charAtIsDigit s 11 &&
       charAtIsDigit s 12 && charAtIs s 13 ':' && charAtIsDigit s 14 &&
       charAtIsDigit s 15 && charAtIs s 16 ':' && charAtIsDigit s 17 &&
       charAtIsDigit s 18))
  if shapeOk then .ok s
  else .error (.valueError ("Invalid isoformat string".data) none)

/-! ### comment.py -/

/-- The deviation field of a comment `URL` (`Deviation |
PartialDeviation`). -/
inductive DevRef where
  | full (d : Deviation)
  | part (p : PartialDeviation)
  deriving DecidableEq

def DevRef.kind : DevRef → Kind
  | .full d => d.kind
  | .part p => p.kind

def DevRef.id : DevRef → Str
  | .full d => d.id
  | .part p => p.id

/-- `comment.URL` dataclass. -/
structure URL where
  deviation : DevRef
  comment_id : Str
  deriving DecidableEq

/-- `URL.__str__`. -/
def URL.toStr (u : URL) : Str :=
  strJoin ['/']
    [("https://www.deviantart.com/comments".data), u.deviation.kind.val,
     u.deviation.id, u.comment_id]

/-- `URL.from_str`: a failed search raises `ValueError`, an unsupported
kind value (`ValueError` from `Kind(...)`) is re-raised as
`NotImplementedError`. -/
def URL.from_str (url : Str) : Except Exc URL :=
  match commentSearch url with
  | none =>
    .error (.valueError (url ++ (": invalid comment URL".data))
      (some (.attributeError ("NoneType has no attribute groups".data))))
  | some (dev_kind, dev_id, comment_id) =>
    match Kind.fromValue dev_kind with
    | .ok k => .ok ⟨.part ⟨k, dev_id⟩, comment_id⟩
    | .error e =>
      .error
        (.notImplementedError (dev_kind ++ (": kind not implemented".data))
          (some e))

/-- `except KeyError as exc: raise wrap(...) from exc` around a
computation: only `KeyError` is re-wrapped, every other exception
propagates unchanged. -/
def rewrapKeyError {α : Type} (wrap : Exc → Exc) :
    Except Exc α → Except Exc α
  | .error (.keyError k) => .error (wrap (.keyError k))
  | r => r

/-- `except CommentJSONError as exc: raise wrap(...) from exc` around a
computation: only `CommentJSONError` is re-wrapped. -/
def rewrapCommentJSON {α : Type} (wrap : Exc → Exc) :
    Except Exc α → Except Exc α
  | .error (.commentJSONError m c) => .error (wrap (.commentJSONError m c))
  | r => r

/-- Scalar (hashable) Python values usable as dict keys; the feature
fold builds a dict keyed by such values.  A container `type` value
would raise `TypeError` (unhashable) in Python, mirrored here. -/
inductive SKey where
  | nullK
  | boolK (b : Bool)
  | numK (n : Int)
  | strK (s : Str)
  deriving DecidableEq

def JSON.asKey : JSON → Except Exc SKey
  | .null => .ok .nullK
  | .bool b => .ok (.boolK b)
  | .num n => .ok (.numK n)
  | .str s => .ok (.strK s)
  | _ => .error (.typeError ("unhashable type".data))

abbrev FeatMap := List (SKey × JSON)

def lookupFeat : FeatMap → SKey → Option JSON
  | [], _ => none
  | (k, v) :: rest, key => if k = key then some v else lookupFeat rest key

/-- Python dict assignment on the feature map: overwrite the value in
place when the key exists (insertion order kept), else append.  All
maps reached here have unique keys, for which replace-first equals
Python's semantics. -/
def setFeat : FeatMap → SKey → JSON → FeatMap
  | [], k, v => [(k, v)]
  | (k0, v0) :: m, k, v =>
    if k0 = k then (k, v) :: m else (k0, v0) :: setFeat m k v

/-- One step of the dict comprehension in `Body.__post_init__`:
`f["type"]`, `f["data"]`, then dict assignment. -/
def featStep (m : FeatMap) (f : JSON) : Except Exc FeatMap :=
  match f.getKey ("type".data) with
  | .error e => .error e
  | .ok t =>
    match f.getKey ("data".data) with
    | .error e => .error e
    | .ok d =>
      match t.asKey with
      | .error e => .error e
      | .ok k => .ok (setFeat m k d)

def foldFeats (m : FeatMap) : List JSON → Except Exc FeatMap
  | [] => .ok m
  | f :: fs =>
    match featStep m f with
    | .error e => .error e
    | .ok m2 => foldFeats m2 fs

/-- `Body.__post_init__`: `{f["type"]: f["data"] for f in features}`
(iterating whatever `features` decoded to). -/
def body_post_init (features : JSON) : Except Exc FeatMap :=
  match features.getList with
  | .error e => .error e
  | .ok fs => foldFeats [] fs

/-- `comment.Body` dataclass, after `__post_init__` has folded the
features. -/
structure Body where
  markup : JSON
  features : FeatMap

/-- `Body(markup, feats)` — running the dataclass constructor including
`__post_init__`. -/
def Body.make (markup features : JSON) : Except Exc Body :=
  match body_post_init features with
  | .error e => .error e
  | .ok fm => .ok ⟨markup, fm⟩

def ckPARAGRAPH : Str := "paragraph".data
def ckTEXT : Str := "text".data
def ckMENTION : Str := "da-mention".data

def isStrEq (t : JSON) (s : Str) : Bool :=
  match t with
  | .str x => x == s
  | _ => false

def isParagraphType (t : JSON) : Bool := isStrEq t ckPARAGRAPH
def isTextOrMentionType (t : JSON) : Bool :=
  isStrEq t ckTEXT || isStrEq t ckMENTION
def isMentionType (t : JSON) : Bool := isStrEq t ckMENTION

/-- Filter a node list by its `type` field (`c["type"]` may raise). -/
def filterByType (p : JSON → Bool) : List JSON → Except Exc (List JSON)
  | [] => .ok []
  | c :: cs =>
    match c.getKey ("type".data) with
    | .error e => .error e
    | .ok t =>
      match filterByType p cs with
      | .error e => .error e
      | .ok rest => .ok (if p t then c :: rest else rest)

/-- `markup["document"]["content"]`. -/
def docContent (markup : JSON) : Except Exc JSON :=
  match markup.getKey ("document".data) with
  | .error e => .error e
  | .ok d => d.getKey ("content".data)

/-- `Body.get_paragraphs`. -/
def Body.get_paragraphs (b : Body) : Except Exc (List JSON) :=
  match docContent b.markup with
  | .error e => .error e
  | .ok con =>
    match con.getList with
    | .error e => .error e
    | .ok cs => filterByType isParagraphType cs

/-- The flattening `for p in paragraphs for c in p["content"] if p c` in
`Body.text` / `Body.mentions`. -/
def flattenByType (p : JSON → Bool) : List JSON → Except Exc (List JSON)
  | [] => .ok []
  | par :: ps =>
    match par.getKey ("content".data) with
    | .error e => .error e
    | .ok con =>
      match con.getList with
      | .error e => .error e
      | .ok cs =>
        match filterByType p cs with
        | .error e => .error e
        | .ok kept =>
          match flattenByType p ps with
          | .error e => .error e
          | .ok rest => .ok (kept ++ rest)

/-- `c["attrs"]["user"]["username"]`. -/
def mentionUsername (c : JSON) : Except Exc JSON :=
  match c.getKey ("attrs".data) with
  | .error e => .error e
  | .ok attrs =>
    match attrs.getKey ("user".data) with
    | .error e => .error e
    | .ok user => user.getKey ("username".data)

/-- One line of `Body.text`: the node's text, or the mentioned user's
username (the node already passed the text-or-mention filter).  The
value must be a string for `"\n".join` to accept it. -/
def lineOf (c : JSON) : Except Exc Str :=
  match c.getKey ("type".data) with
  | .error e => .error e
  | .ok t =>
    if isStrEq t ckTEXT then
      match c.getKey ("text".data) with
      | .error e => .error e
      | .ok v => v.asStr
    else
      match mentionUsername c with
      | .error e => .error e
      | .ok v => v.asStr

def mapLineOf : List JSON → Except Exc (List Str)
  | [] => .ok []
  | c :: cs =>
    match lineOf c with
    | .error e => .error e
    | .ok l =>
      match mapLineOf cs with
      | .error e => .error e
      | .ok rest => .ok (l :: rest)

/-- `Body.text` (property). -/
def Body.text (b : Body) : Except Exc Str :=
  match b.get_paragraphs with
  | .error e => .error e
  | .ok ps =>
    match flattenByType isTextOrMentionType ps with
    | .error e => .error e
    | .ok cs =>
      match mapLineOf cs with
      | .error e => .error e
      | .ok lines => .ok (strJoin ['\n'] lines)

def mapMentionName : List JSON → Except Exc (List JSON)
  | [] => .ok []
  | c :: cs =>
    match mentionUsername c with
    | .error e => .error e
    | .ok v =>
      match mapMentionName cs with
      | .error e => .error e
      | .ok rest => .ok (v :: rest)

/-- `Body.mentions` (property), fully consumed. -/
def Body.mentions (b : Body) : Except Exc (List JSON) :=
  match b.get_paragraphs with
  | .error e => .error e
  | .ok ps =>
    match flattenByType isMentionType ps with
    | .error e => .error e
    | .ok ms => mapMentionName ms

/-- `Body.words` (property):
`self.features["WORD_COUNT_FEATURE"]["words"]`. -/
def Body.words (b : Body) : Except Exc JSON :=
  match lookupFeat b.features (.strK ("WORD_COUNT_FEATURE".data)) with
  | none => .error (.keyError ("WORD_COUNT_FEATURE".data))
  | some f => f.getKey ("words".data)

/-- `comment.Metadata` dataclass.  Fields the source stores without
validation are kept as raw JSON values. -/
structure Metadata where
  id : Str
  deviation : DevRef
  parent_id : Option Str
  author : JSON
  posted : Str
  edited : Option Str
  replies : JSON

/-- `Metadata.url` (property). -/
def Metadata.url (m : Metadata) : URL := ⟨m.deviation, m.id⟩

/-- `comment.Comment` dataclass. -/
structure Comment where
  metadata : Metadata
  body : Body

/-- The body of the `try` block in `Comment._assemble_metadata`,
statement by statement in source order. -/
def metadataInner (data : JSON) : Except Exc Metadata :=
  match data.getKey ("commentId".data) with
  | .error e => .error e
  | .ok cid =>
    match data.getKey ("typeId".data) with
    | .error e => .error e
    | .ok tid =>
      match Kind.fromValue (pyStr tid) with
      | .error e => .error e
      | .ok k =>
        match data.getKey ("itemId".data) with
        | .error e => .error e
        | .ok iid =>
          match data.getKey ("parentId".data) with
          | .error e => .error e
          | .ok pid =>
            match data.getKey ("user".data) with
            | .error e => .error e
            | .ok user =>
              match user.getKey ("username".data) with
              | .error e => .error e
              | .ok author =>
                match data.getKey ("posted".data) with
                | .error e => .error e
                | .ok postedRaw =>
                  match postedRaw.asStr with
                  | .error e => .error e
                  | .ok postedStr =>
                    match fromisoformat postedStr with
                    | .error e => .error e
                    | .ok posted =>
                      match data.getKey ("edited".data) with
                      | .error e => .error e
                      | .ok editedRaw =>
                        let editedRes : Except Exc (Option Str) :=
                          if editedRaw.truthy then
                            match editedRaw.asStr with
                            | .error e => .error e
                            | .ok es =>
                              match fromisoformat es with
                              | .error e => .error e
                              | .ok ed => .ok (some ed)
                          else .ok none
                        match editedRes with
                        | .error e => .error e
                        | .ok edited =>
                          match data.getKey ("replies".data) with
                          | .error e => .error e
                          | .ok replies =>
                            .ok ⟨pyStr cid, .part ⟨k, pyStr iid⟩,
                              (if pid.truthy then some (pyStr pid) else none),
                              author, posted, edited, replies⟩

/-- `Comment._assemble_metadata`: only `KeyError` is re-raised as
`CommentJSONError` (its `except KeyError` clause). -/
def assembleMetadata (data : JSON) : Except Exc Metadata :=
  rewrapKeyError
    (fun e => .commentJSONError ("comment JSON: malformed metadata".data) e)
    (metadataInner data)

/-- The body of the `try` block in `Comment._assemble_body`. -/
def bodyInner (data : JSON) : Except Exc (JSON × JSON) :=
  match data.getKey ("textContent".data) with
  | .error e => .error e
  | .ok tc =>
    match tc.getKey ("html".data) with
    | .error e => .error e
    | .ok html =>
      match html.getKey ("markup".data) with
      | .error e => .error e
      | .ok mRaw =>
        match jsonLoadsValue mRaw with
        | .error e => .error e
        | .ok markup =>
          match data.getKey ("textContent".data) with
          | .error e => .error e
          | .ok tc2 =>
            match tc2.getKey ("html".data) with
            | .error e => .error e
            | .ok html2 =>
              match html2.getKey ("features".data) with
              | .error e => .error e
              | .ok fRaw =>
                match jsonLoadsValue fRaw with
                | .error e => .error e
                | .ok feats => .ok (markup, feats)

/-- `Comment._assemble_body`: only `KeyError` is re-raised as
`CommentJSONError`; `Body(markup, feats)` runs outside the `try`. -/
def assembleBody (data : JSON) : Except Exc Body :=
  match
    rewrapKeyError
      (fun e => .commentJSONError ("comment JSON: malformed body".data) e)
      (bodyInner data)
  with
  | .error e => .error e
  | .ok mf => Body.make mf.1 mf.2

/-- `Comment.from_json` (metadata first, then body, as in the
constructor call). -/
def Comment.from_json (data : JSON) : Except Exc Comment :=
  match assembleMetadata data with
  | .error e => .error e
  | .ok m =>
    match assembleBody data with
    | .error e => .error e
    | .ok b => .ok ⟨m, b⟩

/-- `comment.Page` dataclass (fields stored without validation). -/
structure Page where
  has_more : JSON
  has_less : JSON
  next_offset : JSON
  prev_offset : JSON
  comments : List Comment

/-- The first `try` block of `Page.from_json`: the four metadata
keys. -/
def pageMeta (data : JSON) : Except Exc (JSON × JSON × JSON × JSON) :=
  match data.getKey ("hasMore".data) with
  | .error e => .error e
  | .ok hm =>
    match data.getKey ("hasLess".data) with
    | .error e => .error e
    | .ok hl =>
      match data.getKey ("nextOffset".data) with
      | .error e => .error e
      | .ok no =>
        match data.getKey ("prevOffset".data) with
        | .error e => .error e
        | .ok po => .ok (hm, hl, no, po)

def mapFromJson : List JSON → Except Exc (List Comment)
  | [] => .ok []
  | c :: cs =>
    match Comment.from_json c with
    | .error e => .error e
    | .ok com =>
      match mapFromJson cs with
      | .error e => .error e
      | .ok rest => .ok (com :: rest)

/-- The second `try` block of `Page.from_json`:
`[Comment.from_json(c) for c in data["thread"]]`.  Note that the
`data["thread"]` lookup itself sits inside this block, whose `except`
clause only catches `CommentJSONError`. -/
def pageComments (data : JSON) : Except Exc (List Comment) :=
  match data.getKey ("thread".data) with
  | .error e => .error e
  | .ok th =>
    match th.getList with
    | .error e => .error e
    | .ok l => mapFromJson l

/-- `Page.from_json`. -/
def Page.from_json (data : JSON) : Except Exc Page :=
  match
    rewrapKeyError
      (fun e => .pageJSONError ("page JSON: malformed page metadata".data) e)
      (pageMeta data)
  with
  | .error e => .error e
  | .ok meta =>
    match
      rewrapCommentJSON
        (fun e =>
          .pageJSONError ("page JSON: malformed comment section".data) e)
        (pageComments data)
    with
    | .error e => .error e
    | .ok comments =>
      .ok ⟨meta.1, meta.2.1, meta.2.2.1, meta.2.2.2, comments⟩

/-! ### client.py

The aiohttp transport and the bs4 HTML parser are out-of-scope
collaborators (spec section 6); they are modelled as oracle functions
supplied in a `Net` record.  Parsed HTML is modelled as the list of
`input` elements with their attributes — the only shape
`extract_token` inspects.  `html.parser` is lenient and never raises,
so malformed markup simply yields a tree without the wanted element. -/

abbrev Params := List (Str × Str)

def lookupParam : Params → Str → Option Str
  | [], _ => none
  | (k, v) :: rest, key => if k = key then some v else lookupParam rest key

/-- Python dict assignment `d[k] = v` on a string-valued dict:
in-place value overwrite (insertion order kept), new keys appended.
All dicts reached here have unique keys, for which replace-first
equals Python's semantics. -/
def dictSetStr : Params → Str → Str → Params
  | [], k, v => [(k, v)]
  | (k0, v0) :: d, k, v =>
    if k0 = k then (k, v) :: d else (k0, v0) :: dictSetStr d k v

/-- An HTML `input` element (attribute list). -/
structure InputTag where
  attrs : Params
  deriving DecidableEq

/-- A parsed HTML document, reduced to its `input` elements in document
order. -/
structure Soup where
  inputs : List InputTag
  deriving DecidableEq

/-- `soup.find("input", attrs={"name": "csrf_token"})`. -/
def soupFindCsrf (s : Soup) : Option InputTag :=
  s.inputs.find?
    (fun t => lookupParam t.attrs ("name".data) == some ("csrf_token".data))

/-- `client.extract_token`: the broad `except Exception` turns both
"element absent" (`TypeError` from `None[...]`) and "element has no
value attribute" (`KeyError`) into the same `ValueError`, chaining the
cause. -/
def extract_token (parseHtml : Str → Soup) (html : Str) : Except Exc Str :=
  match soupFindCsrf (parseHtml html) with
  | none =>
    .error (.valueError ("CSRF token not found in html".data)
      (some (.typeError ("NoneType is not subscriptable".data))))
  | some tag =>
    match lookupParam tag.attrs ("value".data) with
    | some v => .ok v
    | none =>
      .error (.valueError ("CSRF token not found in html".data)
        (some (.keyError ("value".data))))

/-- `client.TOKEN_PAGE`. -/
def TOKEN_PAGE : Str := "https://www.deviantart.com/users/login".data

/-- `client.APIEndpoint`. -/
inductive APIEndpoint where
  | COMMENTS
  deriving DecidableEq

def APIEndpoint.url : APIEndpoint → Str
  | .COMMENTS =>
    "https://www.deviantart.com/_napi/shared_api/comments/thread".data

/-- One GET request issued through `Client.get` (url, optional query
params). -/
structure Request where
  url : Str
  params : Option Params
  deriving DecidableEq

/-- The transport and HTML-parsing collaborators. -/
structure Net where
  get : Str → Option Params → Except Exc Str
  parseHtml : Str → Soup

/-- `client.Client` state relevant to the embedded logic: the token
string, initially empty. -/
structure Client where
  token : Str
  deriving DecidableEq

/-- `Client.authenticated` (property): `self.token != ""`. -/
def Client.authenticated (c : Client) : Bool := !(c.token == [])

/-- Result of a `Client.query` call: the GET requests issued in order,
the client state afterwards, the caller's params dict afterwards (the
dict is mutated in place in Python), and the returned value or raised
exception. -/
structure QueryOut where
  log : List Request
  client : Client
  params : Params
  result : Except Exc JSON

/-- The undecorated body of `Client.query` (lines 152-157):
`params["csrf_token"] = self.token`, then
`json.loads(await self.get(endpoint, params=params))`, re-raising only
`json.decoder.JSONDecodeError` as `BadJSONError`. -/
def Client.queryBody (net : Net) (c : Client) (url : Str)
    (params0 : Params) : QueryOut :=
  let ps := dictSetStr params0 ("csrf_token".data) c.token
  match net.get url (some ps) with
  | .error e => ⟨[⟨url, some ps⟩], c, ps, .error e⟩
  | .ok body =>
    match jsonLoadsStr body with
    | .ok j => ⟨[⟨url, some ps⟩], c, ps, .ok j⟩
    | .error e =>
      ⟨[⟨url, some ps⟩], c, ps,
        .error
          (if e.isJSONDecodeError then
            .badJSONError ("malformed JSON response".data) (some e)
          else e)⟩

/-- `Client.query` as called: the `authenticate` decorator wrapped
around `queryBody`.  When unauthenticated it GETs `TOKEN_PAGE`,
extracts a token (`except ValueError` → generic `Error` chaining the
cause) and stores it on the client before running the body. -/
def Client.query (net : Net) (c : Client) (ep : APIEndpoint)
    (params : Params) : QueryOut :=
  if c.authenticated then Client.queryBody net c ep.url params
  else
    match net.get TOKEN_PAGE none with
    | .error e => ⟨[⟨TOKEN_PAGE, none⟩], c, params, .error e⟩
    | .ok html =>
      match extract_token net.parseHtml html with
      | .ok t =>
        let out := Client.queryBody net ⟨t⟩ ep.url params
        ⟨⟨TOKEN_PAGE, none⟩ :: out.log, out.client, out.params, out.result⟩
      | .error e =>
        if e.isValueError then
          ⟨[⟨TOKEN_PAGE, none⟩], c, params,
            .error
              (.clientError (TOKEN_PAGE ++ (": token not found".data))
                (some e))⟩
        else ⟨[⟨TOKEN_PAGE, none⟩], c, params, .error e⟩

/-! ### Claim-statement helpers, witness inputs and transports

Closed inputs used by the claim theorems, their witnesses and the
counterexamples below, plus the statement-side helper functions the
theorems quantify over. -/

/-- A raw comment whose `textContent.html.markup` field is present but
is not itself parseable as JSON. -/
def c2BadMarkupComment : JSON :=
  .obj [(("textContent".data),
    .obj [(("html".data),
      .obj [(("markup".data), .str ("not json".data)),
            (("features".data), .str ("[]".data))])])]

def c9Soup : Soup :=
  ⟨[⟨[("n0".data, "x".data)]⟩,
    ⟨[("name".data, "csrf_token".data), ("value".data, "tok".data)]⟩]⟩

/-- A transport whose bootstrap page succeeds but whose API endpoint
always fails, so the witness exercises the raising path of `query`. -/
def c10Net : Net :=
  ⟨fun u _ =>
    if u == TOKEN_PAGE then .ok ("h".data)
    else .error (.serverConnectionError ("down".data)),
   fun _ => c9Soup⟩

/-- A transport serving the bootstrap page and failing on the API
endpoint, with HTML that parses to a token-bearing tree. -/
def c3Net : Net :=
  ⟨fun u _ =>
    if u == TOKEN_PAGE then .ok ("h".data)
    else .error (.serverConnectionError ("down".data)),
   fun _ => c9Soup⟩

/-- The same transport but with HTML parsing to a tokenless tree. -/
def c3NetNoTok : Net :=
  ⟨fun u _ =>
    if u == TOKEN_PAGE then .ok ("h".data)
    else .error (.serverConnectionError ("down".data)),
   fun _ => ⟨[]⟩⟩

/-- The `type`/`data` projection of one feature record, filtered on the
key `k` (statement-side helper for C7). -/
def featValOf (f : JSON) (k : SKey) : Option JSON :=
  match f.getKey ("type".data), f.getKey ("data".data) with
  | .ok t, .ok d =>
    match t.asKey with
    | .ok tk => if tk = k then some d else none
    | .error _ => none
  | _, _ => none

/-- The data of the last record in `fs` whose `type` equals `k`
(scanning left to right, later records overwrite). -/
def lastTypeData (fs : List JSON) (k : SKey) : Option JSON :=
  fs.foldl
    (fun acc f =>
      match featValOf f k with
      | some d => some d
      | none => acc)
    none

def c7Features : List JSON :=
  [.obj [(("type".data), .str ("A".data)), (("data".data), .num 1)],
   .obj [(("type".data), .str ("B".data)), (("data".data), .num 2)],
   .obj [(("type".data), .str ("A".data)), (("data".data), .num 3)]]

/-- A raw comment whose `typeId` is `2`: `Kind(str(2))` raises a plain
`ValueError`, which `Comment._assemble_metadata` does not convert
(its `except` clause only catches `KeyError`). -/
def c1BadComment : JSON :=
  .obj [(("commentId".data), .num 7), (("typeId".data), .num 2)]

/-- A page whose four metadata keys are present and whose thread holds
one comment that fails to decode with a non-`CommentJSONError`. -/
def c1CexPage : JSON :=
  .obj [(("hasMore".data), .bool false), (("hasLess".data), .bool false),
        (("nextOffset".data), .null), (("prevOffset".data), .null),
        (("thread".data), .arr [c1BadComment])]

/-- Whether one of the four page-metadata keys is absent. -/
def pageMetaMissing (kvs : List (Str × JSON)) : Bool :=
  (lookupStr kvs ("hasMore".data)).isNone ||
  (lookupStr kvs ("hasLess".data)).isNone ||
  (lookupStr kvs ("nextOffset".data)).isNone ||
  (lookupStr kvs ("prevOffset".data)).isNone

/-- A page with one undecodable comment (`{}` raises the comment
decode error on its first missing key), used to witness the amended
wrapping behavior. -/
def c1WitPage : JSON :=
  .obj [(("hasMore".data), .bool true), (("hasLess".data), .bool false),
        (("nextOffset".data), .num 10), (("prevOffset".data), .null),
        (("thread".data), .arr [.obj []])]

/-- One paragraph of the C8 shape: type `paragraph`, holding exactly
one node, which is either a text node carrying `line` (`isMen =
false`) or a mention node whose username is `line` (`isMen =
true`). -/
def ParagraphHolds (p : JSON) (line : Str) (isMen : Bool) : Prop :=
  p.getKey ("type".data) = .ok (.str ckPARAGRAPH) ∧
  ∃ n, p.getKey ("content".data) = .ok (.arr [n]) ∧
    ((isMen = false ∧ n.getKey ("type".data) = .ok (.str ckTEXT) ∧
        n.getKey ("text".data) = .ok (.str line)) ∨
     (isMen = true ∧ n.getKey ("type".data) = .ok (.str ckMENTION) ∧
        mentionUsername n = .ok (.str line)))

def c8Node1 : JSON :=
  .obj [(("type".data), .str ckTEXT), (("text".data), .str ("hi".data))]

def c8Node2 : JSON :=
  .obj [(("type".data), .str ckMENTION),
        (("attrs".data),
          .obj [(("user".data),
            .obj [(("username".data), .str ("bob".data))])])]

def c8Par (n : JSON) : JSON :=
  .obj [(("type".data), .str ckPARAGRAPH), (("content".data), .arr [n])]

def c8Markup : JSON :=
  .obj [(("document".data),
    .obj [(("content".data), .arr [c8Par c8Node1, c8Par c8Node2])])]

/-! ## Shared helper lemmas -/

theorem stripLit_self_append (lit s : Str) : stripLit lit (lit ++ s) = some s := by
  induction lit with
  | nil => rfl
  | cons c cs ih => simp [stripLit, ih]

theorem takeWhile_append_stop {p : Char → Bool} (xs ys : Str) (c : Char)
    (hxs : ∀ x ∈ xs, p x = true) (hc : p c = false) :
    (xs ++ c :: ys).takeWhile p = xs := by
  induction xs with
  | nil => simp [List.takeWhile, hc]
  | cons x xs ih =>
    have hx : p x = true := hxs x (by simp)
    simp only [List.cons_append, List.takeWhile, hx]
    simp [ih (fun a ha => hxs a (by simp [ha]))]

theorem dropWhile_append_stop {p : Char → Bool} (xs ys : Str) (c : Char)
    (hxs : ∀ x ∈ xs, p x = true) (hc : p c = false) :
    (xs ++ c :: ys).dropWhile p = c :: ys := by
  induction xs with
  | nil => simp [List.dropWhile, hc]
  | cons x xs ih =>
    have hx : p x = true := hxs x (by simp)
    simp only [List.cons_append, List.dropWhile, hx]
    simp [ih (fun a ha => hxs a (by simp [ha]))]

theorem takeWhile_of_all {p : Char → Bool} (l : Str)
    (h : ∀ x ∈ l, p x = true) : l.takeWhile p = l := by
  induction l with
  | nil => rfl
  | cons x xs ih =>
    have hx : p x = true := h x (by simp)
    simp only [List.takeWhile, hx]
    simp [ih (fun a ha => h a (by simp [ha]))]

theorem isEmpty_false_of_ne_nil {l : Str} (h : l ≠ []) : l.isEmpty = false := by
  cases l with
  | nil => exact absurd rfl h
  | cons a l => rfl

theorem digit_ne_dash {c : Char} (h : c.isDigit = true) : (c == '-') = false := by
  cases hc : (c == '-') with
  | false => rfl
  | true =>
    have : c = '-' := by exact eq_of_beq hc
    subst this
    exact absurd h (by decide)

/-- On an all-digit input the optional `.+-` branch of the tail matcher
never fires (digits contain no dash), so every fuel level falls through
to the plain `(\d+)` case. -/
theorem tailScan_digits (s : Str) (h : ∀ c ∈ s, c.isDigit = true) :
    ∀ n, tailScan s n = tailScan s 0 := by
  intro n
  induction n with
  | zero => rfl
  | succ m ih =>
    have hdash : charAtIs s (m + 1) '-' = false := by
      unfold charAtIs
      cases hg : s.get? (m + 1) with
      | none => rfl
      | some x =>
        have hx : x ∈ s := List.get?_mem hg
        exact digit_ne_dash (h x hx)
    simp [tailScan, hdash, ih]

theorem tailMatch_digits (s : Str) (h1 : s ≠ []) (h2 : ∀ c ∈ s, c.isDigit = true) :
    tailMatch s = some s := by
  unfold tailMatch
  rw [tailScan_digits s h2]
  cases s with
  | nil => exact absurd rfl h1
  | cons c cs =>
    have hc : c.isDigit = true := h2 c (by simp)
    simp only [tailScan, hc, if_true]
    rw [takeWhile_of_all _ h2]

/-! ## C2 -/

/-- C2: the body-decoding step wraps a missing key on the
`textContent.html.markup` / `features` path into `CommentJSONError`
(chaining the `KeyError`), but — contradicting the claim, the spec and
the function's own docstring — an inner second-stage JSON parse
failure escapes as a raw `json.JSONDecodeError` (a `ValueError`), not
as `CommentJSONError`: the `try` block of `Comment._assemble_body`
catches only `KeyError`. -/
theorem c2_assemble_body_code_bug :
    assembleBody (.obj []) =
      .error (.commentJSONError ("comment JSON: malformed body".data)
        (.keyError ("textContent".data)))
  ∧ assembleBody c2BadMarkupComment =
      .error (.jsonDecodeError ("Expecting value".data))
  ∧ errIs (assembleBody c2BadMarkupComment) Exc.isCommentJSONError = false :=
  ⟨rfl, rfl, rfl⟩

/-! ## C4 -/

/-- C4: both URL parsers split failures in two tiers.  A string the
pattern does not match at all raises `ValueError`; a string the
pattern matches whose kind segment is not a recognized `Kind` (name
lookup for deviation URLs, value lookup for comment URLs) raises
`NotImplementedError` and never `ValueError`. -/
theorem c4_url_error_split (s : Str) :
    (devSearch s = none →
      errIs (Deviation.from_url s) Exc.isValueError = true)
  ∧ (∀ a k i, devSearch s = some (a, k, i) →
      kindNameOk (pyUpper k) = false →
      errIs (Deviation.from_url s) Exc.isNotImplementedError = true ∧
      errIs (Deviation.from_url s) Exc.isValueError = false)
  ∧ (commentSearch s = none →
      errIs (URL.from_str s) Exc.isValueError = true)
  ∧ (∀ k d i, commentSearch s = some (k, d, i) →
      (k == ['1']) = false →
      errIs (URL.from_str s) Exc.isNotImplementedError = true ∧
      errIs (URL.from_str s) Exc.isValueError = false) := by
  refine ⟨?_, ?_, ?_, ?_⟩
  · intro h
    simp [Deviation.from_url, h, errIs, Exc.isValueError]
  · intro a k i h hk
    simp [Deviation.from_url, h, Kind.fromName, hk, errIs,
      Exc.isNotImplementedError, Exc.isValueError]
  · intro h
    simp [URL.from_str, h, errIs, Exc.isValueError]
  · intro k d i h hk
    simp [URL.from_str, h, Kind.fromValue, hk, errIs,
      Exc.isNotImplementedError, Exc.isValueError]

theorem c4_url_error_split_witness :
    (errIs (Deviation.from_url ("notaurl".data)) Exc.isValueError = true)
  ∧ (errIs (Deviation.from_url ("www.deviantart.com/alice/foo/99".data))
      Exc.isNotImplementedError = true ∧
     errIs (Deviation.from_url ("www.deviantart.com/alice/foo/99".data))
      Exc.isValueError = false)
  ∧ (errIs (URL.from_str ("notaurl".data)) Exc.isValueError = true)
  ∧ (errIs (URL.from_str ("www.deviantart.com/comments/2/3/4".data))
      Exc.isNotImplementedError = true ∧
     errIs (URL.from_str ("www.deviantart.com/comments/2/3/4".data))
      Exc.isValueError = false) :=
  ⟨(c4_url_error_split _).1 (by decide),
   (c4_url_error_split _).2.1 ("alice".data) ("foo".data) ("99".data)
     (by decide) (by decide),
   (c4_url_error_split _).2.2.1 (by decide),
   (c4_url_error_split _).2.2.2 (['2']) (['3']) (['4'])
     (by decide) (by decide)⟩

/-! ## C9 -/

/-- C9: `extract_token` returns exactly the `value` attribute of the
first `input` element whose `name` attribute is `csrf_token`; when no
such element exists it raises `ValueError`; and every failure of
`extract_token` (including ones from degenerate parses — `html.parser`
itself never raises, malformed markup just yields a tree without the
element) is that same single `ValueError`. -/
theorem c9_extract_token_contract (parseHtml : Str → Soup) (html : Str) :
    (∀ tag v, soupFindCsrf (parseHtml html) = some tag →
      lookupParam tag.attrs ("value".data) = some v →
      extract_token parseHtml html = .ok v)
  ∧ (soupFindCsrf (parseHtml html) = none →
      errIs (extract_token parseHtml html) Exc.isValueError = true)
  ∧ (∀ e, extract_token parseHtml html = .error e →
      e.isValueError = true) := by
  refine ⟨?_, ?_, ?_⟩
  · intro tag v hf hv
    simp [extract_token, hf, hv]
  · intro hf
    simp [extract_token, hf, errIs, Exc.isValueError]
  · intro e he
    unfold extract_token at he
    cases hf : soupFindCsrf (parseHtml html) with
    | none =>
      simp only [hf] at he
      cases he
      rfl
    | some tag =>
      simp only [hf] at he
      cases hv : lookupParam tag.attrs ("value".data) with
      | none =>
        simp only [hv] at he
        cases he
        rfl
      | some v =>
        simp only [hv] at he
        exact Except.noConfusion he

theorem c9_extract_token_contract_witness :
    extract_token (fun _ => c9Soup) ("html".data) = .ok ("tok".data)
  ∧ errIs (extract_token (fun _ => Soup.mk []) ("html".data))
      Exc.isValueError = true :=
  ⟨(c9_extract_token_contract (fun _ => c9Soup) ("html".data)).1
      ⟨[("name".data, "csrf_token".data), ("value".data, "tok".data)]⟩
      ("tok".data) (by rfl) (by rfl),
   (c9_extract_token_contract (fun _ => Soup.mk []) ("html".data)).2.1
      (by rfl)⟩

/-- Whatever the transport does, the body of `Client.query` leaves the
caller's dict updated with the token under `csrf_token`. -/
theorem queryBody_params (net : Net) (c : Client) (url : Str)
    (params0 : Params) :
    (Client.queryBody net c url params0).params =
      dictSetStr params0 ("csrf_token".data) c.token := by
  unfold Client.queryBody
  dsimp only
  split
  · rfl
  · split <;> rfl

theorem queryBody_client (net : Net) (c : Client) (url : Str)
    (params0 : Params) :
    (Client.queryBody net c url params0).client = c := by
  unfold Client.queryBody
  dsimp only
  split
  · rfl
  · split <;> rfl

theorem queryBody_log (net : Net) (c : Client) (url : Str)
    (params0 : Params) :
    (Client.queryBody net c url params0).log =
      [⟨url, some (dictSetStr params0 ("csrf_token".data) c.token)⟩] := by
  unfold Client.queryBody
  dsimp only
  split
  · rfl
  · split <;> rfl

/-! ## C10 -/

/-- C10: `Client.query` mutates the caller's params dict in place:
whenever the call reaches the query body (already authenticated, or
authentication succeeded with token `t`), the dict visible to the
caller afterwards is the original with its `csrf_token` key set to the
client's token — whether the call returns or raises (the `params`
component of `QueryOut` is the caller-visible dict on every outcome) —
and that assignment overwrites any value previously stored under
`csrf_token`. -/
theorem c10_query_params_mutation (net : Net) (c : Client)
    (ep : APIEndpoint) (params : Params) :
    (c.authenticated = true →
      (Client.query net c ep params).params =
        dictSetStr params ("csrf_token".data) c.token)
  ∧ (∀ html t, c.authenticated = false →
      net.get TOKEN_PAGE none = .ok html →
      extract_token net.parseHtml html = .ok t →
      (Client.query net c ep params).params =
        dictSetStr params ("csrf_token".data) t)
  ∧ (∀ v, lookupParam (dictSetStr params ("csrf_token".data) v)
      ("csrf_token".data) = some v) := by
  refine ⟨?_, ?_, ?_⟩
  · intro hauth
    simp [Client.query, hauth, queryBody_params]
  · intro html t hauth hget hext
    simp [Client.query, hauth, hget, hext, queryBody_params]
  · intro v
    induction params with
    | nil => simp [dictSetStr, lookupParam]
    | cons kv d ih =>
      cases kv with
      | mk k0 v0 =>
        by_cases hk : k0 = ("csrf_token".data)
        · simp [dictSetStr, hk, lookupParam]
        · simp [dictSetStr, hk, lookupParam, ih]

theorem c10_query_params_mutation_witness :
    (Client.query c10Net ⟨"tk".data⟩ .COMMENTS
      [("csrf_token".data, "old".data)]).params =
      dictSetStr [("csrf_token".data, "old".data)] ("csrf_token".data)
        ("tk".data)
  ∧ (Client.query c10Net ⟨[]⟩ .COMMENTS
      [("csrf_token".data, "old".data)]).params =
      dictSetStr [("csrf_token".data, "old".data)] ("csrf_token".data)
        ("tok".data)
  ∧ lookupParam
      (dictSetStr [("csrf_token".data, "old".data)] ("csrf_token".data)
        ("new".data)) ("csrf_token".data) = some ("new".data) := by
  refine ⟨?_, ?_, ?_⟩
  · exact (c10_query_params_mutation c10Net ⟨"tk".data⟩ .COMMENTS
      [("csrf_token".data, "old".data)]).1 (by decide)
  · exact (c10_query_params_mutation c10Net ⟨[]⟩ .COMMENTS
      [("csrf_token".data, "old".data)]).2.1 ("h".data) ("tok".data)
      (by decide) (by rfl) (by rfl)
  · exact (c10_query_params_mutation c10Net ⟨[]⟩ .COMMENTS
      [("csrf_token".data, "old".data)]).2.2 ("new".data)

/-! ## C3 -/

/-- `extract_token` can only ever raise `ValueError` (its broad
`except Exception` re-raises everything as one), so the decorator's
`except ValueError` always catches its failure. -/
theorem extract_token_err_isValueError (parseHtml : Str → Soup)
    (html : Str) (e : Exc) (he : extract_token parseHtml html = .error e) :
    e.isValueError = true := by
  unfold extract_token at he
  cases hf : soupFindCsrf (parseHtml html) with
  | none =>
    simp only [hf] at he
    cases he
    rfl
  | some tag =>
    simp only [hf] at he
    cases hv : lookupParam tag.attrs ("value".data) with
    | none =>
      simp only [hv] at he
      cases he
      rfl
    | some v =>
      simp only [hv] at he
      exact Except.noConfusion he

theorem query_auth_eq (net : Net) (c : Client) (ep : APIEndpoint)
    (params : Params) (hauth : c.authenticated = true) :
    Client.query net c ep params = Client.queryBody net c ep.url params := by
  unfold Client.query
  rw [if_pos hauth]

theorem query_unauth_get_err (net : Net) (c : Client) (ep : APIEndpoint)
    (params : Params) (e : Exc) (hauth : c.authenticated = false)
    (hget : net.get TOKEN_PAGE none = .error e) :
    Client.query net c ep params = ⟨[⟨TOKEN_PAGE, none⟩], c, params, .error e⟩ := by
  unfold Client.query
  rw [if_neg (by simp [hauth]), hget]

theorem query_unauth_ext_ok (net : Net) (c : Client) (ep : APIEndpoint)
    (params : Params) (html t : Str) (hauth : c.authenticated = false)
    (hget : net.get TOKEN_PAGE none = .ok html)
    (hext : extract_token net.parseHtml html = .ok t) :
    Client.query net c ep params =
      ⟨⟨TOKEN_PAGE, none⟩ :: (Client.queryBody net ⟨t⟩ ep.url params).log,
       (Client.queryBody net ⟨t⟩ ep.url params).client,
       (Client.queryBody net ⟨t⟩ ep.url params).params,
       (Client.queryBody net ⟨t⟩ ep.url params).result⟩ := by
  unfold Client.query
  rw [if_neg (by simp [hauth]), hget]
  dsimp only
  rw [hext]

theorem query_unauth_ext_err (net : Net) (c : Client) (ep : APIEndpoint)
    (params : Params) (html : Str) (e : Exc) (hauth : c.authenticated = false)
    (hget : net.get TOKEN_PAGE none = .ok html)
    (hext : extract_token net.parseHtml html = .error e) :
    Client.query net c ep params =
      ⟨[⟨TOKEN_PAGE, none⟩], c, params,
       .error (.clientError (TOKEN_PAGE ++ (": token not found".data))
         (some e))⟩ := by
  unfold Client.query
  rw [if_neg (by simp [hauth]), hget]
  dsimp only
  rw [hext]
  simp only [extract_token_err_isValueError net.parseHtml html e hext, if_true]

/-- C3: the client counts as authenticated exactly when its token is
non-empty.  While the token is empty, every `query` call first GETs
the bootstrap page; if the token extracts, it is stored on the client
before the query body runs; if extraction fails, the call raises the
generic `Error` chaining the extraction failure as its cause.  Once
the token is non-empty, `query` issues only the endpoint request
(which is never the bootstrap page) and leaves the token unchanged. -/
theorem c3_query_authentication (net : Net) (c : Client) (ep : APIEndpoint)
    (params : Params) :
    (c.authenticated = true ↔ c.token ≠ [])
  ∧ (c.token = [] →
      (Client.query net c ep params).log.head? = some ⟨TOKEN_PAGE, none⟩)
  ∧ (∀ html t, c.token = [] → net.get TOKEN_PAGE none = .ok html →
      extract_token net.parseHtml html = .ok t →
      Client.query net c ep params =
        ⟨⟨TOKEN_PAGE, none⟩ :: (Client.queryBody net ⟨t⟩ ep.url params).log,
         ⟨t⟩, (Client.queryBody net ⟨t⟩ ep.url params).params,
         (Client.queryBody net ⟨t⟩ ep.url params).result⟩)
  ∧ (∀ html e, c.token = [] → net.get TOKEN_PAGE none = .ok html →
      extract_token net.parseHtml html = .error e →
      (Client.query net c ep params).result =
        .error (.clientError (TOKEN_PAGE ++ (": token not found".data))
          (some e)))
  ∧ (c.token ≠ [] →
      Client.query net c ep params = Client.queryBody net c ep.url params
      ∧ (Client.query net c ep params).log =
          [⟨ep.url, some (dictSetStr params ("csrf_token".data) c.token)⟩]
      ∧ (Client.query net c ep params).client = c
      ∧ ep.url ≠ TOKEN_PAGE) := by
  refine ⟨?_, ?_, ?_, ?_, ?_⟩
  · simp [Client.authenticated]
  · intro htok
    have hauth : c.authenticated = false := by
      simp [Client.authenticated, htok]
    cases hget : net.get TOKEN_PAGE none with
    | error e => rw [query_unauth_get_err net c ep params e hauth hget]; rfl
    | ok html =>
      cases hext : extract_token net.parseHtml html with
      | ok t => rw [query_unauth_ext_ok net c ep params html t hauth hget hext]; rfl
      | error e =>
        rw [query_unauth_ext_err net c ep params html e hauth hget hext]; rfl
  · intro html t htok hget hext
    have hauth : c.authenticated = false := by
      simp [Client.authenticated, htok]
    rw [query_unauth_ext_ok net c ep params html t hauth hget hext]
    rw [queryBody_client net ⟨t⟩ ep.url params]
  · intro html e htok hget hext
    have hauth : c.authenticated = false := by
      simp [Client.authenticated, htok]
    rw [query_unauth_ext_err net c ep params html e hauth hget hext]
  · intro htok
    have hauth : c.authenticated = true := by
      simp [Client.authenticated, htok]
    refine ⟨query_auth_eq net c ep params hauth, ?_, ?_, ?_⟩
    · rw [query_auth_eq net c ep params hauth,
        queryBody_log net c ep.url params]
    · rw [query_auth_eq net c ep params hauth,
        queryBody_client net c ep.url params]
    · cases ep
      decide

theorem c3_query_authentication_witness :
    (Client.query c3Net ⟨[]⟩ .COMMENTS []).log.head? =
      some ⟨TOKEN_PAGE, none⟩
  ∧ Client.query c3Net ⟨[]⟩ .COMMENTS [] =
      ⟨⟨TOKEN_PAGE, none⟩ ::
        (Client.queryBody c3Net ⟨"tok".data⟩ APIEndpoint.COMMENTS.url []).log,
       ⟨"tok".data⟩,
       (Client.queryBody c3Net ⟨"tok".data⟩ APIEndpoint.COMMENTS.url []).params,
       (Client.queryBody c3Net ⟨"tok".data⟩ APIEndpoint.COMMENTS.url []).result⟩
  ∧ (Client.query c3NetNoTok ⟨[]⟩ .COMMENTS []).result =
      .error (.clientError (TOKEN_PAGE ++ (": token not found".data))
        (some (.valueError ("CSRF token not found in html".data)
          (some (.typeError ("NoneType is not subscriptable".data))))))
  ∧ Client.query c3Net ⟨"tk".data⟩ .COMMENTS [] =
      Client.queryBody c3Net ⟨"tk".data⟩ APIEndpoint.COMMENTS.url [] :=
  ⟨(c3_query_authentication c3Net ⟨[]⟩ .COMMENTS []).2.1 rfl,
   (c3_query_authentication c3Net ⟨[]⟩ .COMMENTS []).2.2.1 ("h".data)
     ("tok".data) rfl (by rfl) (by rfl),
   (c3_query_authentication c3NetNoTok ⟨[]⟩ .COMMENTS []).2.2.2.1 ("h".data)
     (.valueError ("CSRF token not found in html".data)
       (some (.typeError ("NoneType is not subscriptable".data))))
     rfl (by rfl) (by rfl),
   ((c3_query_authentication c3Net ⟨"tk".data⟩ .COMMENTS []).2.2.2.2
     (by decide)).1⟩

/-! ## C7 -/

theorem lookupFeat_setFeat (m : FeatMap) (k : SKey) (v : JSON) (q : SKey) :
    lookupFeat (setFeat m k v) q = if k = q then some v else lookupFeat m q := by
  induction m with
  | nil =>
    by_cases h : k = q <;> simp [setFeat, lookupFeat, h]
  | cons kv m ih =>
    cases kv with
    | mk k0 v0 =>
      by_cases h0 : k0 = k
      · subst h0
        by_cases h : k0 = q <;> simp [setFeat, lookupFeat, h]
      · by_cases h : k0 = q
        · subst h
          have hkq : ¬ k = k0 := fun hh => h0 hh.symm
          simp [setFeat, lookupFeat, h0, hkq]
        · simp [setFeat, lookupFeat, h0, h, ih]

theorem foldFeats_lookup (fs : List JSON) (q : SKey) :
    ∀ m, (∀ f ∈ fs, isOk (featStep [] f) = true) →
      ∃ m2, foldFeats m fs = .ok m2 ∧
        lookupFeat m2 q =
          (fs.foldl
            (fun acc f =>
              match featValOf f q with
              | some d => some d
              | none => acc)
            (lookupFeat m q)) := by
  induction fs with
  | nil =>
    intro m _
    exact ⟨m, rfl, rfl⟩
  | cons f fs ih =>
    intro m hwf
    have hf : isOk (featStep [] f) = true := hwf f (by simp)
    unfold featStep at hf
    cases ht : f.getKey ("type".data) with
    | error e => simp [ht, isOk] at hf
    | ok t =>
      simp only [ht] at hf
      cases hd : f.getKey ("data".data) with
      | error e => simp [hd, isOk] at hf
      | ok d =>
        simp only [hd] at hf
        cases hk : t.asKey with
        | error e => simp [hk, isOk] at hf
        | ok tk =>
          obtain ⟨m2, hfold, hlook⟩ :=
            ih (setFeat m tk d) (fun g hg => hwf g (by simp [hg]))
          refine ⟨m2, ?_, ?_⟩
          · unfold foldFeats featStep
            simp only [ht, hd, hk]
            exact hfold
          · rw [hlook]
            have hfv : featValOf f q =
                (if tk = q then some d else none) := by
              unfold featValOf
              simp only [ht, hd, hk]
            simp only [List.foldl_cons, hfv, lookupFeat_setFeat]
            by_cases hq : tk = q <;> simp [hq]

/-- C7: `Body.__post_init__` folds the features sequence of
`type`/`data` records into a mapping keyed by each record's `type`
holding that record's `data`, and on duplicate types the stored value
is the data of the last such record in sequence order. -/
theorem c7_features_last_write_wins (fs : List JSON) (q : SKey)
    (hwf : ∀ f ∈ fs, isOk (featStep [] f) = true) :
    ∃ m, body_post_init (.arr fs) = .ok m ∧
      lookupFeat m q = lastTypeData fs q := by
  obtain ⟨m2, hfold, hlook⟩ := foldFeats_lookup fs q [] hwf
  exact ⟨m2, hfold, hlook⟩

theorem c7_features_last_write_wins_witness :
    (∃ m, body_post_init (.arr c7Features) = .ok m ∧
      lookupFeat m (.strK ("A".data)) = lastTypeData c7Features (.strK ("A".data)))
  ∧ lastTypeData c7Features (.strK ("A".data)) = some (.num 3) :=
  ⟨c7_features_last_write_wins c7Features (.strK ("A".data))
    (by
      intro f hf
      simp only [c7Features, List.mem_cons, List.not_mem_nil, or_false] at hf
      rcases hf with h | h | h <;> subst h <;> rfl),
   rfl⟩

/-! ## C1 -/

/-- C1 counterexample: a comment record in the thread fails to decode,
yet `Page.from_json` raises the comment's own raw `ValueError`, not
`PageJSONError` — the page layer only catches `CommentJSONError`. -/
theorem c1_page_decode_counterexample :
    isOk (Comment.from_json c1BadComment) = false
  ∧ Page.from_json c1CexPage =
      .error (.valueError ("2 is not a valid Kind".data) none)
  ∧ errIs (Page.from_json c1CexPage) Exc.isPageJSONError = false :=
  ⟨rfl, rfl, rfl⟩

theorem pageMeta_err_of_missing (kvs : List (Str × JSON))
    (h : pageMetaMissing kvs = true) :
    ∃ k, pageMeta (.obj kvs) = .error (.keyError k) := by
  unfold pageMeta JSON.getKey
  dsimp only
  cases h1 : lookupStr kvs ("hasMore".data) with
  | none => exact ⟨_, rfl⟩
  | some v1 =>
    dsimp only
    cases h2 : lookupStr kvs ("hasLess".data) with
    | none => exact ⟨_, rfl⟩
    | some v2 =>
      dsimp only
      cases h3 : lookupStr kvs ("nextOffset".data) with
      | none => exact ⟨_, rfl⟩
      | some v3 =>
        dsimp only
        cases h4 : lookupStr kvs ("prevOffset".data) with
        | none => exact ⟨_, rfl⟩
        | some v4 => simp [pageMetaMissing, h1, h2, h3, h4] at h

theorem pageMeta_ok_of_present (kvs : List (Str × JSON))
    (h : pageMetaMissing kvs = false) :
    ∃ v, pageMeta (.obj kvs) = .ok v := by
  unfold pageMeta JSON.getKey
  dsimp only
  cases h1 : lookupStr kvs ("hasMore".data) with
  | none => simp [pageMetaMissing, h1] at h
  | some v1 =>
    dsimp only
    cases h2 : lookupStr kvs ("hasLess".data) with
    | none => simp [pageMetaMissing, h1, h2] at h
    | some v2 =>
      dsimp only
      cases h3 : lookupStr kvs ("nextOffset".data) with
      | none => simp [pageMetaMissing, h1, h2, h3] at h
      | some v3 =>
        dsimp only
        cases h4 : lookupStr kvs ("prevOffset".data) with
        | none => simp [pageMetaMissing, h1, h2, h3, h4] at h
        | some v4 => exact ⟨_, rfl⟩

theorem rewrapKeyError_ok {α : Type} (w : Exc → Exc) (r : Except Exc α)
    (a : α) (h : rewrapKeyError w r = .ok a) : r = .ok a := by
  cases r with
  | ok x => exact h
  | error e => cases e <;> exact Except.noConfusion h

theorem rewrapCommentJSON_ok {α : Type} (w : Exc → Exc) (r : Except Exc α)
    (a : α) (h : rewrapCommentJSON w r = .ok a) : r = .ok a := by
  cases r with
  | ok x => exact h
  | error e => cases e <;> exact Except.noConfusion h

/-- C1 amended: `Page.from_json` is all-or-nothing.  A missing
metadata key raises `PageJSONError`; a comment-decoding step that
fails with the comment decode error (`CommentJSONError`) raises
`PageJSONError` wrapping that failure as its cause (comment failures
of any other exception kind propagate unwrapped, as the counterexample
shows); and a successful result always contains the decoded value of
every comment record in the thread — never a partial page. -/
theorem c1_page_decode_amended (kvs : List (Str × JSON)) :
    (pageMetaMissing kvs = true →
      errIs (Page.from_json (.obj kvs)) Exc.isPageJSONError = true)
  ∧ (∀ e, pageMetaMissing kvs = false →
      pageComments (.obj kvs) = .error e →
      e.isCommentJSONError = true →
      Page.from_json (.obj kvs) =
        .error (.pageJSONError ("page JSON: malformed comment section".data) e))
  ∧ (∀ p, Page.from_json (.obj kvs) = .ok p →
      pageComments (.obj kvs) = .ok p.comments ∧
      ∀ l, (JSON.obj kvs).getKey ("thread".data) = .ok (.arr l) →
        mapFromJson l = .ok p.comments) := by
  refine ⟨?_, ?_, ?_⟩
  · intro h
    obtain ⟨k, hk⟩ := pageMeta_err_of_missing kvs h
    unfold Page.from_json
    rw [hk]
    rfl
  · intro e h hpc hce
    obtain ⟨v, hv⟩ := pageMeta_ok_of_present kvs h
    unfold Page.from_json
    rw [hv]
    dsimp only [rewrapKeyError]
    rw [hpc]
    cases e <;> simp [Exc.isCommentJSONError] at hce
    rfl
  · intro p hp
    unfold Page.from_json at hp
    cases hm : rewrapKeyError
        (fun e => .pageJSONError ("page JSON: malformed page metadata".data) e)
        (pageMeta (.obj kvs)) with
    | error e => rw [hm] at hp; exact Except.noConfusion hp
    | ok meta =>
      rw [hm] at hp
      cases hc : rewrapCommentJSON
          (fun e =>
            .pageJSONError ("page JSON: malformed comment section".data) e)
          (pageComments (.obj kvs)) with
      | error e =>
        rw [hc] at hp
        exact Except.noConfusion hp
      | ok comments =>
        rw [hc] at hp
        have hpc := rewrapCommentJSON_ok _ _ _ hc
        cases hp
        refine ⟨hpc, ?_⟩
        intro l hl
        unfold pageComments at hpc
        simp only [hl] at hpc
        simpa [JSON.getList] using hpc

theorem c1_page_decode_amended_witness :
    errIs (Page.from_json (.obj [])) Exc.isPageJSONError = true
  ∧ Page.from_json c1WitPage =
      .error (.pageJSONError ("page JSON: malformed comment section".data)
        (.commentJSONError ("comment JSON: malformed metadata".data)
          (.keyError ("commentId".data)))) :=
  ⟨(c1_page_decode_amended []).1 rfl,
   (c1_page_decode_amended
      [(("hasMore".data), .bool true), (("hasLess".data), .bool false),
       (("nextOffset".data), .num 10), (("prevOffset".data), .null),
       (("thread".data), .arr [.obj []])]).2.1
     (.commentJSONError ("comment JSON: malformed metadata".data)
       (.keyError ("commentId".data)))
     rfl rfl rfl⟩

/-! ## C6 -/

/-- C6: parsing a comment URL
`www.deviantart.com/comments/1/<dev-id>/<comment-id>` with digit-string
ids succeeds, producing a `PartialDeviation` (no artist) of kind `ART`
with that deviation id, and that comment id. -/
theorem c6_comment_url_parse (dev_id cid : Str)
    (h1 : dev_id ≠ []) (h2 : ∀ c ∈ dev_id, c.isDigit = true)
    (h3 : cid ≠ []) (h4 : ∀ c ∈ cid, c.isDigit = true) :
    URL.from_str
        (("www.deviantart.com/comments/1/".data) ++ dev_id ++ '/' :: cid)
      = .ok ⟨.part ⟨.ART, dev_id⟩, cid⟩ := by
  have hmatch :
      commentMatchAt (COMMENT_LIT ++ '1' :: '/' :: (dev_id ++ '/' :: cid))
        = some (['1'], dev_id, cid) := by
    unfold commentMatchAt
    rw [stripLit_self_append]
    dsimp only
    have ht1 : List.takeWhile Char.isDigit
        ('1' :: '/' :: (dev_id ++ '/' :: cid)) = ['1'] := by
      simp [List.takeWhile]
    have hd1 : List.dropWhile Char.isDigit
        ('1' :: '/' :: (dev_id ++ '/' :: cid)) =
          '/' :: (dev_id ++ '/' :: cid) := by
      simp [List.dropWhile]
    simp only [ht1, hd1, takeWhile_append_stop dev_id cid '/' h2 (by decide),
      dropWhile_append_stop dev_id cid '/' h2 (by decide),
      takeWhile_of_all cid h4, isEmpty_false_of_ne_nil h1,
      isEmpty_false_of_ne_nil h3, List.isEmpty_cons, Bool.false_eq_true,
      if_false]
  have hsearch :
      commentSearch (COMMENT_LIT ++ '1' :: '/' :: (dev_id ++ '/' :: cid))
        = some (['1'], dev_id, cid) := by
    show commentSearch ('w' ::
      (['w', 'w', '.', 'd', 'e', 'v', 'i', 'a', 'n', 't', 'a', 'r', 't',
        '.', 'c', 'o', 'm', '/', 'c', 'o', 'm', 'm', 'e', 'n', 't', 's',
        '/'] ++ '1' :: '/' :: (dev_id ++ '/' :: cid))) = _
    unfold commentSearch
    rw [show ('w' ::
      (['w', 'w', '.', 'd', 'e', 'v', 'i', 'a', 'n', 't', 'a', 'r', 't',
        '.', 'c', 'o', 'm', '/', 'c', 'o', 'm', 'm', 'e', 'n', 't', 's',
        '/'] ++ '1' :: '/' :: (dev_id ++ '/' :: cid))) =
      COMMENT_LIT ++ '1' :: '/' :: (dev_id ++ '/' :: cid) from rfl, hmatch]
  show URL.from_str (COMMENT_LIT ++ '1' :: '/' :: (dev_id ++ '/' :: cid)) = _
  unfold URL.from_str
  rw [hsearch]
  rfl

theorem c6_comment_url_parse_witness :
    URL.from_str ("www.deviantart.com/comments/1/12345/67890".data) =
      .ok ⟨.part ⟨.ART, "12345".data⟩, "67890".data⟩ :=
  c6_comment_url_parse ("12345".data) ("67890".data)
    (by decide) (by decide) (by decide) (by decide)

/-! ## C5 -/

theorem pyLowerChar_idem (c : Char) :
    pyLowerChar (pyLowerChar c) = pyLowerChar c := by
  have hall : ∀ p ∈ lowerPairs,
      lowerPairs.find? (fun q => q.1 == p.2) = none := by decide
  cases hf : lowerPairs.find? (fun p => p.1 == c) with
  | none => simp [pyLowerChar, hf]
  | some p =>
    have hp : p ∈ lowerPairs := List.mem_of_find?_eq_some hf
    simp [pyLowerChar, hf, hall p hp]

theorem isArtistChar_pyLowerChar (c : Char) (h : isArtistChar c = true) :
    isArtistChar (pyLowerChar c) = true := by
  have hall : ∀ p ∈ lowerPairs, isArtistChar p.2 = true := by decide
  cases hf : lowerPairs.find? (fun p => p.1 == c) with
  | none => simpa [pyLowerChar, hf] using h
  | some p =>
    have hp : p ∈ lowerPairs := List.mem_of_find?_eq_some hf
    simp [pyLowerChar, hf, hall p hp]

theorem pyLower_idem (s : Str) : pyLower (pyLower s) = pyLower s := by
  induction s with
  | nil => rfl
  | cons c t ih =>
    show pyLowerChar (pyLowerChar c) :: pyLower (pyLower t) =
      pyLowerChar c :: pyLower t
    rw [pyLowerChar_idem, ih]

theorem devMatchAt_cons_ne_w (c : Char) (s : Str) (h : (c == 'w') = false) :
    devMatchAt (c :: s) = none := by
  have hne : c ≠ 'w' := ne_of_beq_false h
  simp [devMatchAt, DEV_LIT, stripLit, hne]

theorem devSearch_cons_of_ne_w (c : Char) (s : Str) (h : (c == 'w') = false) :
    devSearch (c :: s) = devSearch s := by
  have heq : devSearch (c :: s) =
      match devMatchAt (c :: s) with
      | some g => some g
      | none => devSearch s := rfl
  rw [heq, devMatchAt_cons_ne_w c s h]

theorem devSearch_head_some (s : Str) (g : Str × Str × Str)
    (hne : s ≠ []) (h : devMatchAt s = some g) : devSearch s = some g := by
  cases s with
  | nil => exact absurd rfl hne
  | cons c rest =>
    unfold devSearch
    rw [h]

/-- `deviation.URL_PATTERN` anchored right at its literal, on a URL of
the exact shape `Deviation.url` produces. -/
theorem devMatchAt_exact (a i : Str)
    (ha1 : a ≠ []) (ha2 : ∀ c ∈ a, isArtistChar c = true)
    (hi1 : i ≠ []) (hi2 : ∀ c ∈ i, c.isDigit = true) :
    devMatchAt (DEV_LIT ++ (a ++ '/' :: ('a' :: 'r' :: 't' :: '/' :: i)))
      = some (a, ['a', 'r', 't'], i) := by
  have hk1 : List.takeWhile isKindChar ('a' :: 'r' :: 't' :: '/' :: i)
      = ['a', 'r', 't'] := by
    simp [List.takeWhile, isKindChar]
  have hk2 : List.dropWhile isKindChar ('a' :: 'r' :: 't' :: '/' :: i)
      = '/' :: i := by
    simp [List.dropWhile, isKindChar]
  unfold devMatchAt
  rw [stripLit_self_append]
  simp only [takeWhile_append_stop a ('a' :: 'r' :: 't' :: '/' :: i) '/' ha2
      (by decide),
    dropWhile_append_stop a ('a' :: 'r' :: 't' :: '/' :: i) '/' ha2
      (by decide),
    isEmpty_false_of_ne_nil ha1, hk1, hk2, List.isEmpty_cons,
    Bool.false_eq_true, if_false, tailMatch_digits i hi1 hi2]

/-- C5: the semantic round trip for deviation URLs.  For any artist of
platform-legal handle characters, any kind (the enum member standing
for both accepted spellings `art` and `journal`), and any digit-string
id, parsing the formatted URL succeeds and recovers the lower-cased
artist (i.e. the artist up to case), the same kind and the same id. -/
theorem c5_deviation_url_roundtrip (artist idg : Str) (k : Kind)
    (h1 : artist ≠ []) (h2 : ∀ c ∈ artist, isArtistChar c = true)
    (h3 : idg ≠ []) (h4 : ∀ c ∈ idg, c.isDigit = true) :
    Deviation.from_url (Deviation.url ⟨artist, k, idg⟩)
      = .ok ⟨pyLower artist, k, idg⟩
  ∧ pyLower (pyLower artist) = pyLower artist := by
  refine ⟨?_, pyLower_idem artist⟩
  cases k
  have hA1 : pyLower artist ≠ [] := by
    cases artist with
    | nil => exact absurd rfl h1
    | cons c t => simp [pyLower]
  have hA2 : ∀ c ∈ pyLower artist, isArtistChar c = true := by
    intro c hc
    obtain ⟨x, hx, rfl⟩ := List.mem_map.mp hc
    exact isArtistChar_pyLowerChar x (h2 x hx)
  have hurl : Deviation.url ⟨artist, .ART, idg⟩ =
      'h' :: 't' :: 't' :: 'p' :: 's' :: ':' :: '/' :: '/' ::
        (DEV_LIT ++ (pyLower artist ++ '/' :: ('a' :: 'r' :: 't' :: '/' :: idg)))
      := by
    have hk : pyLower (Kind.name Kind.ART) = ['a', 'r', 't'] := rfl
    have hh : ("https://www.deviantart.com".data) =
        ['h', 't', 't', 'p', 's', ':', '/', '/', 'w', 'w', 'w', '.', 'd',
         'e', 'v', 'i', 'a', 'n', 't', 'a', 'r', 't', '.', 'c', 'o', 'm']
      := rfl
    simp [Deviation.url, strJoin, hk, hh, DEV_LIT, List.append_assoc]
  rw [hurl]
  have hsearch : devSearch
      ('h' :: 't' :: 't' :: 'p' :: 's' :: ':' :: '/' :: '/' ::
        (DEV_LIT ++ (pyLower artist ++ '/' :: ('a' :: 'r' :: 't' :: '/' :: idg))))
      = some (pyLower artist, ['a', 'r', 't'], idg) := by
    rw [devSearch_cons_of_ne_w 'h' _ (by decide),
      devSearch_cons_of_ne_w 't' _ (by decide),
      devSearch_cons_of_ne_w 't' _ (by decide),
      devSearch_cons_of_ne_w 'p' _ (by decide),
      devSearch_cons_of_ne_w 's' _ (by decide),
      devSearch_cons_of_ne_w ':' _ (by decide),
      devSearch_cons_of_ne_w '/' _ (by decide),
      devSearch_cons_of_ne_w '/' _ (by decide)]
    exact devSearch_head_some _ _ (by simp [DEV_LIT])
      (devMatchAt_exact (pyLower artist) idg hA1 hA2 h3 h4)
  unfold Deviation.from_url
  rw [hsearch]
  rfl

theorem c5_deviation_url_roundtrip_witness :
    Deviation.from_url
        (Deviation.url ⟨"JaneDoe".data, .ART, "12345".data⟩)
      = .ok ⟨"janedoe".data, .ART, "12345".data⟩
  ∧ pyLower (pyLower ("JaneDoe".data)) = pyLower ("JaneDoe".data) :=
  ⟨(c5_deviation_url_roundtrip ("JaneDoe".data) ("12345".data) .ART
      (by decide) (by decide) (by decide) (by decide)).1.trans rfl,
   (c5_deviation_url_roundtrip ("JaneDoe".data) ("12345".data) .ART
      (by decide) (by decide) (by decide) (by decide)).2⟩

/-! ## C8 -/

theorem c8_paragraph_filter (ps : List JSON) (specs : List (Str × Bool))
    (h : List.Forall₂ (fun p sp => ParagraphHolds p sp.1 sp.2) ps specs) :
    filterByType isParagraphType ps = .ok ps := by
  induction h with
  | nil => rfl
  | cons hp hrest ih =>
    obtain ⟨htype, _⟩ := hp
    simp [filterByType, htype, ih, isParagraphType, isStrEq]

theorem c8_text_nodes (ps : List JSON) (specs : List (Str × Bool))
    (h : List.Forall₂ (fun p sp => ParagraphHolds p sp.1 sp.2) ps specs) :
    ∃ ns, flattenByType isTextOrMentionType ps = .ok ns ∧
      mapLineOf ns = .ok (specs.map Prod.fst) := by
  induction h with
  | nil => exact ⟨[], rfl, rfl⟩
  | @cons p sp ps2 specs2 hp hrest ih =>
    obtain ⟨ns2, hf2, hm2⟩ := ih
    obtain ⟨htype, n, hcon, hnode⟩ := hp
    rcases hnode with ⟨_, hnt, hline⟩ | ⟨_, hnt, hline⟩
    · refine ⟨n :: ns2, ?_, ?_⟩
      · simp [flattenByType, hcon, JSON.getList, filterByType, hnt,
          isTextOrMentionType, isStrEq, hf2]
      · simp [mapLineOf, lineOf, hnt, isStrEq, hline, JSON.asStr, hm2]
    · refine ⟨n :: ns2, ?_, ?_⟩
      · simp [flattenByType, hcon, JSON.getList, filterByType, hnt,
          isTextOrMentionType, isStrEq, ckTEXT, ckMENTION, hf2]
      · simp [mapLineOf, lineOf, hnt, isStrEq, ckTEXT, ckMENTION, hline,
          JSON.asStr, hm2]

theorem c8_mention_nodes (ps : List JSON) (specs : List (Str × Bool))
    (h : List.Forall₂ (fun p sp => ParagraphHolds p sp.1 sp.2) ps specs) :
    ∃ ms, flattenByType isMentionType ps = .ok ms ∧
      mapMentionName ms =
        .ok ((specs.filter Prod.snd).map (fun sp => JSON.str sp.1)) := by
  induction h with
  | nil => exact ⟨[], rfl, rfl⟩
  | @cons p sp ps2 specs2 hp hrest ih =>
    obtain ⟨ms2, hf2, hm2⟩ := ih
    obtain ⟨htype, n, hcon, hnode⟩ := hp
    rcases hnode with ⟨hmen, hnt, hline⟩ | ⟨hmen, hnt, hline⟩
    · refine ⟨ms2, ?_, ?_⟩
      · simp [flattenByType, hcon, JSON.getList, filterByType, hnt,
          isMentionType, isStrEq, ckTEXT, ckMENTION, hf2]
      · rw [hm2]
        simp [List.filter, hmen]
    · refine ⟨n :: ms2, ?_, ?_⟩
      · simp [flattenByType, hcon, JSON.getList, filterByType, hnt,
          isMentionType, isStrEq, ckMENTION, hf2]
      · simp [mapMentionName, hline, hm2, List.filter, hmen]

/-- C8: for a body whose markup document holds `N` paragraphs, each
with exactly one text-or-mention node, `text` is the newline-join of
the `N` lines in document order (text nodes contribute their text,
mention nodes their username), and `mentions` yields exactly the
mention usernames in document order. -/
theorem c8_body_text_mentions (markup : JSON) (fm : FeatMap)
    (ps : List JSON) (specs : List (Str × Bool))
    (hdoc : docContent markup = .ok (.arr ps))
    (h : List.Forall₂ (fun p sp => ParagraphHolds p sp.1 sp.2) ps specs) :
    Body.text ⟨markup, fm⟩ = .ok (strJoin ['\n'] (specs.map Prod.fst))
  ∧ Body.mentions ⟨markup, fm⟩ =
      .ok ((specs.filter Prod.snd).map (fun sp => JSON.str sp.1)) := by
  have hgp : Body.get_paragraphs ⟨markup, fm⟩ = .ok ps := by
    simp [Body.get_paragraphs, hdoc, JSON.getList,
      c8_paragraph_filter ps specs h]
  obtain ⟨ns, hf, hm⟩ := c8_text_nodes ps specs h
  obtain ⟨ms, hfm, hmm⟩ := c8_mention_nodes ps specs h
  constructor
  · simp [Body.text, hgp, hf, hm]
  · simp [Body.mentions, hgp, hfm, hmm]

theorem c8_body_text_mentions_witness :
    Body.text ⟨c8Markup, []⟩ = .ok ("hi\nbob".data)
  ∧ Body.mentions ⟨c8Markup, []⟩ = .ok [.str ("bob".data)] := by
  have h := c8_body_text_mentions c8Markup [] [c8Par c8Node1, c8Par c8Node2]
    [(("hi".data), false), (("bob".data), true)]
    rfl
    (List.Forall₂.cons ⟨rfl, c8Node1, rfl, Or.inl ⟨rfl, rfl, rfl⟩⟩
      (List.Forall₂.cons ⟨rfl, c8Node2, rfl, Or.inr ⟨rfl, rfl, rfl⟩⟩
        List.Forall₂.nil))
  exact ⟨h.1.trans rfl, h.2.trans rfl⟩

end Sundown
